import Mathlib

/-!
Verification development for the lifeos backend (`backend/services.py`,
`backend/main.py`).  Python `date` values are embedded as integers: the
proleptic-Gregorian ordinal used by `date.toordinal()` (0001-01-01 = 1).
Date arithmetic (`timedelta(days = n)`) becomes integer addition, and
`date.weekday()` (Monday = 0) becomes `(ordinal - 1) % 7`.  The relational
store is embedded as lists of rows, and each service function is a pure
function from a `DB` state to a result paired with the next `DB` state.
`date.today()` is passed explicitly as the `today` parameter.
-/

namespace LifeOS

/-- Days-from-civil conversion: the proleptic-Gregorian ordinal of year
`y`, month `m`, day `d`, agreeing with Python `date(y, m, d).toordinal()`
for `y ≥ 1` (so `toOrdinal 1 1 1 = 1`). -/
def toOrdinal (y m d : Nat) : Nat :=
  let y2 := if m ≤ 2 then y - 1 else y
  let era := y2 / 400
  let yoe := y2 - era * 400
  let mp := if 2 < m then m - 3 else m + 9
  let doy := (153 * mp + 2) / 5 + (d - 1)
  let doe := yoe * 365 + yoe / 4 - yoe / 100 + doy
  era * 146097 + doe - 305

/-- A calendar date as an embedded integer ordinal. -/
def ofYMD (y m d : Nat) : Int := (toOrdinal y m d : Int)

/-- Civil-from-days: year, month, day of a (positive) ordinal; the inverse
of `toOrdinal`, used to embed `strftime`. -/
def fromOrdinal (o : Nat) : Nat × Nat × Nat :=
  let z := o + 305
  let era := z / 146097
  let doe := z - era * 146097
  let yoe := (doe - doe / 1460 + doe / 36524 - doe / 146096) / 365
  let y := yoe + era * 400
  let doy := doe - (365 * yoe + yoe / 4 - yoe / 100)
  let mp := (5 * doy + 2) / 153
  let d := doy - (153 * mp + 2) / 5 + 1
  let m := if mp < 10 then mp + 3 else mp - 9
  (if m ≤ 2 then y + 1 else y, m, d)

/-- Python `date.weekday()`: Monday = 0 … Sunday = 6. -/
def weekday (o : Int) : Int := (o - 1) % 7

/-- Loop body of `_calculate_streak` (`backend/services.py`): walks the
log dates carrying the `check_date`, `streak` and `is_logged_today`
state; the `break` on a gap becomes returning the accumulated state. -/
def streakLoop : List Int → Int → Int → Nat → Bool → Nat × Bool
  | [], _, _, streak, logged => (streak, logged)
  | d :: rest, today, check, streak, logged =>
    if d = today then
      streakLoop rest today (today - 1) (streak + 1) true
    else if d = check then
      streakLoop rest today (check - 1) (streak + 1) logged
    else if d < check then
      (streak, logged)
    else
      streakLoop rest today check streak logged

/-- `_calculate_streak(logs, today)` from `backend/services.py`: given the
dates of completed logs (newest first) and a reference day, returns
`(streak, is_logged_today)`. -/
def calculate_streak (logs : List Int) (today : Int) : Nat × Bool :=
  streakLoop logs today today 0 false

/-- A list of dates sorted descending (newest first), as the gateway
query `order_by(HabitLog.date.desc())` delivers them. -/
def SortedDesc (l : List Int) : Prop := List.Pairwise (fun a b => b ≤ a) l

instance (l : List Int) : Decidable (SortedDesc l) := by
  unfold SortedDesc; infer_instance

/-! ### Row types and database state -/

/-- A `tasks` row (`backend/models.py`), restricted to the fields the
service layer reads. -/
structure TaskR where
  id : Nat
  title : String
  status : String
  is_deleted : Bool
  user_id : Nat
deriving DecidableEq

/-- A `habits` row (`backend/models.py`). -/
structure HabitR where
  id : Nat
  name : String
  target_type : String
  is_deleted : Bool
  user_id : Nat
deriving DecidableEq

/-- A `habit_logs` row (`backend/models.py`). -/
structure HabitLogR where
  habit_id : Nat
  date : Int
  completed : Bool
deriving DecidableEq

/-- A `weekly_reports` row (`backend/models.py`). -/
structure WeeklyReportR where
  user_id : Nat
  week_start : Int
  week_end : Int
  report : String
  score : Int
deriving DecidableEq

/-- A `users` row (`backend/models.py`); `name = ""` embeds a falsy
(absent/empty) Python name. -/
structure UserR where
  id : Nat
  name : String
  email : String
deriving DecidableEq

/-- The relational store as plain lists of rows. -/
structure DB where
  tasks : List TaskR
  habits : List HabitR
  habit_logs : List HabitLogR
  weekly_reports : List WeeklyReportR
  users : List UserR
deriving DecidableEq

/-! ### Gateway queries -/

/-- `db.query(Task).filter(Task.user_id == uid, Task.is_deleted == False)`. -/
def activeTasks (db : DB) (uid : Nat) : List TaskR :=
  db.tasks.filter (fun t => t.user_id == uid && !t.is_deleted)

/-- `db.query(Habit).filter(Habit.user_id == uid, Habit.is_deleted == False)`. -/
def activeHabits (db : DB) (uid : Nat) : List HabitR :=
  db.habits.filter (fun h => h.user_id == uid && !h.is_deleted)

/-- `.filter(Habit.id == hid, Habit.user_id == uid, Habit.is_deleted == False).first()`. -/
def findHabit : List HabitR → Nat → Nat → Option HabitR
  | [], _, _ => none
  | h :: hs, hid, uid =>
    if h.id = hid ∧ h.user_id = uid ∧ h.is_deleted = false then some h
    else findHabit hs hid uid

/-- `.filter(HabitLog.habit_id == hid, HabitLog.date == d).first()`. -/
def findLog : List HabitLogR → Nat → Int → Option HabitLogR
  | [], _, _ => none
  | l :: ls, hid, d =>
    if l.habit_id = hid ∧ l.date = d then some l
    else findLog ls hid d

/-- In-place update `existing.completed = c` of the first log row with the
given habit and date. -/
def setLogCompleted : List HabitLogR → Nat → Int → Bool → List HabitLogR
  | [], _, _, _ => []
  | l :: ls, hid, d, c =>
    if l.habit_id = hid ∧ l.date = d then { l with completed := c } :: ls
    else l :: setLogCompleted ls hid d c

/-- Number of log rows with the given habit and date. -/
def countLogs : List HabitLogR → Nat → Int → Nat
  | [], _, _ => 0
  | l :: ls, hid, d =>
    (if l.habit_id = hid ∧ l.date = d then 1 else 0) + countLogs ls hid d

/-- In-place update `habit.name = new_name` of the first active habit row
matching the `edit_habit` filter. -/
def renameHabit : List HabitR → Nat → Nat → String → List HabitR
  | [], _, _, _ => []
  | h :: hs, hid, uid, nm =>
    if h.id = hid ∧ h.user_id = uid ∧ h.is_deleted = false then
      { h with name := nm } :: hs
    else h :: renameHabit hs hid uid nm

/-- Insert a date into a descending-sorted list. -/
def insertDesc (x : Int) : List Int → List Int
  | [] => [x]
  | y :: ys => if y < x then x :: y :: ys else y :: insertDesc x ys

/-- Sort a list of dates descending (newest first). -/
def sortDesc (l : List Int) : List Int := l.foldr insertDesc []

/-- `db.query(HabitLog).filter(HabitLog.habit_id == hid,
HabitLog.completed == True).order_by(HabitLog.date.desc()).all()`,
projected to the dates (the only field the streak walk reads). -/
def logsDesc (logs : List HabitLogR) (hid : Nat) : List Int :=
  sortDesc ((logs.filter (fun l => l.habit_id == hid && l.completed)).map
    (fun l => l.date))

/-! ### Habit services -/

/-- `log_habit` from `backend/services.py`: ownership check, then upsert of
the `(habit, date)` log row. -/
def log_habit (db : DB) (habit_id : Nat) (log_date : Int)
    (completed : Bool) (user_id : Nat) : Option HabitLogR × DB :=
  match findHabit db.habits habit_id user_id with
  | none => (none, db)
  | some _ =>
    match findLog db.habit_logs habit_id log_date with
    | some existing =>
      (some { existing with completed := completed },
        { db with habit_logs := setLogCompleted db.habit_logs habit_id log_date completed })
    | none =>
      (some ⟨habit_id, log_date, completed⟩,
        { db with habit_logs := db.habit_logs ++ [⟨habit_id, log_date, completed⟩] })

/-- Shape of the dict returned by `edit_habit` / `create_habit` /
`get_habits` entries. -/
structure HabitOut where
  id : Nat
  name : String
  target_type : String
  user_id : Nat
  current_streak : Nat
  is_logged_today : Bool
deriving DecidableEq

/-- `edit_habit` from `backend/services.py`: finds the active habit, renames
it, and returns the dict with hard-coded `current_streak = 0` and
`is_logged_today = False`. -/
def edit_habit (db : DB) (habit_id : Nat) (user_id : Nat) (new_name : String) :
    Option HabitOut × DB :=
  match findHabit db.habits habit_id user_id with
  | none => (none, db)
  | some habit =>
    (some ⟨habit.id, new_name, habit.target_type, habit.user_id, 0, false⟩,
      { db with habits := renameHabit db.habits habit_id user_id new_name })

/-- A sequence of `log_habit` calls `(habit_id, log_date, completed, user_id)`
applied in order, keeping only the evolving database state. -/
def applyLogCalls (db : DB) (calls : List (Nat × Int × Bool × Nat)) : DB :=
  calls.foldl (fun d c => (log_habit d c.1 c.2.1 c.2.2.1 c.2.2.2).2) db

/-- Invariant: at most one log row per `(habit, date)`. -/
def atMostOneLogPerKey (logs : List HabitLogR) : Prop :=
  ∀ hid d, countLogs logs hid d ≤ 1

/-! ### Rounding and rates

Python's `round` (banker's rounding, ties to even) over exact rational
arithmetic; the float literals `0.6` / `0.4` are embedded as the exact
rationals `3/5` / `2/5`. -/

/-- Python `round(x)` to an integer: nearest, ties to even. -/
def pyRound (q : ℚ) : Int :=
  if q - ⌊q⌋ < 1 / 2 then ⌊q⌋
  else if 1 / 2 < q - ⌊q⌋ then ⌊q⌋ + 1
  else if ⌊q⌋ % 2 = 0 then ⌊q⌋ else ⌊q⌋ + 1

/-- Python `round(x, 1)`: to one decimal place. -/
def pyRound1 (q : ℚ) : ℚ := (pyRound (10 * q) : ℚ) / 10

/-- `round((task_rate * 0.6) + (habit_rate * 0.4))`, the weighted score used
by both `get_dashboard` (`productivity_score`) and `generate_weekly_report`
(`weekly_score`) in `backend/services.py`. -/
def blendScore (task_rate habit_rate : ℚ) : Int :=
  pyRound (task_rate * (3 / 5) + habit_rate * (2 / 5))

/-- `task_rate = round((completed_this_week / total_tasks * 100) if
total_tasks else 0)` from `generate_weekly_report`. -/
def reportTaskRate (tasks : List TaskR) : Int :=
  let total := tasks.length
  let completed := (tasks.filter (fun t => t.status == "completed")).length
  pyRound (if total = 0 then 0 else (completed : ℚ) / total * 100)

/-- `habit_rate = round((logs_this_week / possible_logs * 100) if
possible_logs else 0)` from `generate_weekly_report`, where
`possible_logs = total_habits * 7`. -/
def reportHabitRate (logs_this_week total_habits : Nat) : Int :=
  let possible := total_habits * 7
  pyRound (if possible = 0 then 0 else (logs_this_week : ℚ) / possible * 100)

/-! ### Dashboard -/

/-- Shape of the dict returned by `get_dashboard`; `current_streaks` holds
`(name, streak, logged_today)` per habit in iteration order. -/
structure DashboardOut where
  total_tasks : Nat
  completed_tasks : Nat
  pending_tasks : Nat
  task_completion_rate : ℚ
  total_habits : Nat
  habits_logged_today : Nat
  habit_consistency_rate : ℚ
  productivity_score : Int
  current_streaks : List (String × Nat × Bool)
deriving DecidableEq

/-- `get_dashboard` from `backend/services.py`; `date.today()` is the
injected `today`.  The `HabitLog.join(Habit)` count keeps each log row
whose habit belongs to the user and is not soft-deleted. -/
def get_dashboard (db : DB) (user_id : Nat) (today : Int) : DashboardOut :=
  let week_start := today - weekday today
  let all_tasks := activeTasks db user_id
  let total_tasks := all_tasks.length
  let completed_tasks := (all_tasks.filter (fun t => t.status == "completed")).length
  let pending_tasks := total_tasks - completed_tasks
  let task_rate := pyRound1 (if total_tasks = 0 then 0
    else (completed_tasks : ℚ) / total_tasks * 100)
  let all_habits := activeHabits db user_id
  let total_habits := all_habits.length
  let streaks := all_habits.map (fun h =>
    let p := calculate_streak (logsDesc db.habit_logs h.id) today
    (h.name, p.1, p.2))
  let habits_logged_today := (streaks.filter (fun s => s.2.2)).length
  let total_possible := if total_habits = 0 then 0 else total_habits * 7
  let logs_this_week := (db.habit_logs.filter (fun l =>
    db.habits.any (fun h => h.id == l.habit_id && h.user_id == user_id && !h.is_deleted)
    && l.completed && decide (week_start ≤ l.date))).length
  let habit_rate := pyRound1 (if total_possible = 0 then 0
    else (logs_this_week : ℚ) / total_possible * 100)
  ⟨total_tasks, completed_tasks, pending_tasks, task_rate, total_habits,
    habits_logged_today, habit_rate, blendScore task_rate habit_rate, streaks⟩

/-! ### Weekly report generator -/

/-- `week_end = today - timedelta(days=1)` in `generate_weekly_report`. -/
def report_week_end (today : Int) : Int := today - 1

/-- `week_start = week_end - timedelta(days=6)` in `generate_weekly_report`. -/
def report_week_start (today : Int) : Int := report_week_end today - 6

/-- English month abbreviations used by `strftime` `%b` in the C locale. -/
def monthAbbr : Nat → String
  | 1 => "Jan"
  | 2 => "Feb"
  | 3 => "Mar"
  | 4 => "Apr"
  | 5 => "May"
  | 6 => "Jun"
  | 7 => "Jul"
  | 8 => "Aug"
  | 9 => "Sep"
  | 10 => "Oct"
  | 11 => "Nov"
  | 12 => "Dec"
  | _ => ""

/-- Zero-padded day of month, `strftime` `%d`. -/
def pad2 (n : Nat) : String := if n < 10 then "0" ++ toString n else toString n

/-- `strftime('%b %d')` of an ordinal date. -/
def strftimeBD (o : Int) : String :=
  let ymd := fromOrdinal o.toNat
  monthAbbr ymd.2.1 ++ " " ++ pad2 ymd.2.2

/-- `strftime('%b %d, %Y')` of an ordinal date. -/
def strftimeBDY (o : Int) : String :=
  let ymd := fromOrdinal o.toNat
  monthAbbr ymd.2.1 ++ " " ++ pad2 ymd.2.2 ++ ", " ++ toString ymd.1

/-- `name = user.name or user.email.split('@')[0]`: the user's name, or the
part of the email before the first "@" when the name is empty/absent. -/
def displayName (u : UserR) : String :=
  if u.name = "" then u.email.takeWhile (fun c => c ≠ '@') else u.name

/-- Streak of one habit as `generate_weekly_report` computes it: completed
logs of the habit, newest first, walked by `_calculate_streak` at today. -/
def habitStreak (logs : List HabitLogR) (today : Int) (h : HabitR) : Nat :=
  (calculate_streak (logsDesc logs h.id) today).1

/-- The best-streak loop of `generate_weekly_report`: carries
`(best_habit, best_streak)`, updating only on a strictly larger streak. -/
def bestHabitFold (logs : List HabitLogR) (today : Int) :
    List HabitR → Option String × Nat → Option String × Nat
  | [], acc => acc
  | h :: hs, acc =>
    if acc.2 < habitStreak logs today h then
      bestHabitFold logs today hs (some h.name, habitStreak logs today h)
    else
      bestHabitFold logs today hs acc

/-- `best_habit, best_streak` after the loop, started from `(None, 0)`. -/
def bestHabit (logs : List HabitLogR) (habits : List HabitR) (today : Int) :
    Option String × Nat :=
  bestHabitFold logs today habits (none, 0)

/-- The `streak_line` of the report text. -/
def streakLine (best : Option String × Nat) : String :=
  match best.1 with
  | some nm =>
    "Your best streak is \x27" ++ nm ++ "\x27 at " ++ toString best.2 ++
      " days — keep it going!"
  | none => "Start a habit this week to build your first streak."

/-- The tiered `opening` sentence of the report text. -/
def reportOpening (weekly_score : Int) (nm : String) : String :=
  if 80 ≤ weekly_score then
    "Outstanding week, " ++ nm ++ "! You were firing on all cylinders."
  else if 60 ≤ weekly_score then
    "Solid week, " ++ nm ++ "! You made real progress."
  else if 40 ≤ weekly_score then
    "Decent effort this week, " ++ nm ++ ". There\x27s room to push harder."
  else
    "Tough week, " ++ nm ++ ". Every week is a fresh start — let\x27s go."

/-- The `HabitLog.join(Habit)` count of completed logs in the closed window
`[ws, we]` over the user's active habits. -/
def logsInWindow (logs : List HabitLogR) (habits : List HabitR) (uid : Nat)
    (ws we : Int) : Nat :=
  (logs.filter (fun l =>
    habits.any (fun h => h.id == l.habit_id && h.user_id == uid && !h.is_deleted)
    && l.completed && decide (ws ≤ l.date) && decide (l.date ≤ we))).length

/-- The pure computation of `generate_weekly_report` (everything before the
save): the report text and the weekly score, from the tasks, habits and
habit-log tables. -/
def reportContent (tasks : List TaskR) (habits : List HabitR)
    (logs : List HabitLogR) (user : UserR) (today : Int) : String × Int :=
  let week_end := report_week_end today
  let week_start := report_week_start today
  let all_tasks := tasks.filter (fun t => t.user_id == user.id && !t.is_deleted)
  let completed_this_week := (all_tasks.filter (fun t => t.status == "completed")).length
  let total_tasks := all_tasks.length
  let all_habits := habits.filter (fun h => h.user_id == user.id && !h.is_deleted)
  let logs_this_week := logsInWindow logs habits user.id week_start week_end
  let total_habits := all_habits.length
  let possible_logs := total_habits * 7
  let habit_rate := reportHabitRate logs_this_week total_habits
  let task_rate := reportTaskRate all_tasks
  let weekly_score := blendScore (task_rate : ℚ) (habit_rate : ℚ)
  let best := bestHabit logs all_habits today
  let nm := displayName user
  let report_text :=
    reportOpening weekly_score nm ++ "\n\n" ++
    "Tasks: You completed " ++ toString completed_this_week ++ " out of " ++
      toString total_tasks ++ " tasks (" ++ toString task_rate ++ "%).\n" ++
    "Habits: You logged " ++ toString logs_this_week ++ " out of " ++
      toString possible_logs ++ " possible check-ins (" ++ toString habit_rate ++ "%).\n" ++
    "Weekly Score: " ++ toString weekly_score ++ "/100\n\n" ++
    streakLine best ++ "\n\n" ++
    "Week: " ++ strftimeBD week_start ++ " — " ++ strftimeBDY week_end
  (report_text, weekly_score)

/-- `.filter(WeeklyReport.user_id == uid, WeeklyReport.week_start == ws).first()`. -/
def findReport : List WeeklyReportR → Nat → Int → Option WeeklyReportR
  | [], _, _ => none
  | r :: rs, uid, ws =>
    if r.user_id = uid ∧ r.week_start = ws then some r
    else findReport rs uid ws

/-- In-place overwrite `existing.report = text; existing.score = score` of
the first report row with the given user and week_start. -/
def updateFirstReport : List WeeklyReportR → Nat → Int → String → Int →
    List WeeklyReportR
  | [], _, _, _, _ => []
  | r :: rs, uid, ws, txt, sc =>
    if r.user_id = uid ∧ r.week_start = ws then
      { r with report := txt, score := sc } :: rs
    else r :: updateFirstReport rs uid ws txt sc

/-- Number of report rows with the given user and week_start. -/
def countReports : List WeeklyReportR → Nat → Int → Nat
  | [], _, _ => 0
  | r :: rs, uid, ws =>
    (if r.user_id = uid ∧ r.week_start = ws then 1 else 0) + countReports rs uid ws

/-- `generate_weekly_report` from `backend/services.py`: computes the
report content, then upserts the row keyed on `(user, week_start)` —
overwrite the existing row's text and score, else insert a new row. -/
def generate_weekly_report (db : DB) (user : UserR) (today : Int) :
    (String × Int) × DB :=
  match findReport db.weekly_reports user.id (report_week_start today) with
  | some _ =>
    (reportContent db.tasks db.habits db.habit_logs user today,
      { db with weekly_reports := (updateFirstReport db.weekly_reports user.id
          (report_week_start today)
          (reportContent db.tasks db.habits db.habit_logs user today).1
          (reportContent db.tasks db.habits db.habit_logs user today).2) })
  | none =>
    (reportContent db.tasks db.habits db.habit_logs user today,
      { db with weekly_reports := db.weekly_reports ++
          [⟨user.id, report_week_start today, report_week_end today,
            (reportContent db.tasks db.habits db.habit_logs user today).1,
            (reportContent db.tasks db.habits db.habit_logs user today).2⟩] })

/-! ### Batch job -/

/-- `run_weekly_reports` from `backend/main.py`: iterates all users,
generating each report inside a per-user try/except; a raising user is
logged and skipped.  The generation callable is a parameter so a raising
user can be modelled; the function body has no `return` statement, so the
Python return value is `None`, embedded as the first component `none`. -/
def run_weekly_reports (gen : DB → UserR → Except String ((String × Int) × DB))
    (db : DB) : Option Nat × DB :=
  (none,
    db.users.foldl (fun d u =>
      match gen d u with
      | Except.ok r => r.2
      | Except.error _ => d) db)

/-- A generation callable that raises exactly for user `uid` and otherwise
runs `generate_weekly_report` at the given today. -/
def failingOn (uid : Nat) (today : Int) :
    DB → UserR → Except String ((String × Int) × DB) :=
  fun d u =>
    if u.id = uid then Except.error "generation failed"
    else Except.ok (generate_weekly_report d u today)

/-! ### Theorems -/

theorem streakLoop_logged_stays (logs : List Int) :
    ∀ t c s, (streakLoop logs t c s true).2 = true := by
  induction logs with
  | nil => intro t c s; rfl
  | cons d rest ih =>
    intro t c s
    simp only [streakLoop]
    split
    · exact ih t (t - 1) (s + 1)
    · split
      · exact ih t (c - 1) (s + 1)
      · split
        · rfl
        · exact ih t c s

theorem streakLoop_no_today (logs : List Int) :
    ∀ t c s, (∀ d ∈ logs, d ≠ t) →
      (streakLoop logs t c s false).2 = false := by
  induction logs with
  | nil => intro t c s _; rfl
  | cons d rest ih =>
    intro t c s h
    have hd : d ≠ t := h d (List.mem_cons_self d rest)
    have hrest : ∀ x ∈ rest, x ≠ t := fun x hx => h x (List.mem_cons_of_mem d hx)
    simp only [streakLoop, if_neg hd]
    split
    · exact ih t (c - 1) (s + 1) hrest
    · split
      · rfl
      · exact ih t c s hrest

theorem streakLoop_start_false (logs : List Int) (t : Int) :
    (streakLoop logs t t 0 false).2 = false →
    (streakLoop logs t t 0 false).1 = 0 := by
  induction logs with
  | nil => intro _; rfl
  | cons d rest ih =>
    intro h
    by_cases hd : d = t
    · exfalso
      simp only [streakLoop, if_pos hd] at h
      rw [streakLoop_logged_stays] at h
      exact Bool.noConfusion h
    · simp only [streakLoop, if_neg hd] at h ⊢
      by_cases hlt : d < t
      · simp only [if_pos hlt]
      · simp only [if_neg hlt] at h ⊢
        exact ih h

/-- C1 counterexample: for today = 2024-06-12 with completed logs exactly on
2024-06-11 and 2024-06-10 (newest first), `_calculate_streak` does NOT
return streak 2: the first log date is strictly earlier than the expected
`check_date = today`, so the gap branch fires immediately and the result is
`(0, false)`. -/
theorem c1_counterexample :
    ¬ (calculate_streak [ofYMD 2024 6 12 - 1, ofYMD 2024 6 12 - 2]
        (ofYMD 2024 6 12) = (2, false)) := by
  decide

/-- C1 (amended): for every today, completed logs exactly on today−1 and
today−2 (descending, no log on today) give streak 0 and logged_today false:
the streak is broken as soon as today itself is unlogged. -/
theorem c1_yesterday_run_gives_zero (t : Int) :
    calculate_streak [t - 1, t - 2] t = (0, false) := by
  have h1 : ¬ (t - 1 = t) := by omega
  have h2 : t - 1 < t := by omega
  simp [calculate_streak, streakLoop, h1, h2]

/-- C2: over descending-sorted completed logs, a returned streak of at
least 1 forces logged_today = true, and if no log date equals today the
returned streak is 0. -/
theorem c2_streak_requires_today (logs : List Int) (today : Int)
    (hs : SortedDesc logs) :
    (1 ≤ (calculate_streak logs today).1 →
      (calculate_streak logs today).2 = true)
    ∧ ((∀ d ∈ logs, d ≠ today) → (calculate_streak logs today).1 = 0) := by
  constructor
  · intro h1
    by_contra hb
    have hf : (calculate_streak logs today).2 = false := by
      cases hval : (calculate_streak logs today).2
      · rfl
      · exact absurd hval hb
    have := streakLoop_start_false logs today hf
    unfold calculate_streak at h1
    omega
  · intro hno
    have hf : (calculate_streak logs today).2 = false :=
      streakLoop_no_today logs today today 0 hno
    exact streakLoop_start_false logs today hf

/-- C2 witness at a concrete input: logs on days 5 and 4 with today = 5. -/
theorem c2_streak_requires_today_witness :
    (1 ≤ (calculate_streak [(5 : Int), 4] 5).1 →
      (calculate_streak [(5 : Int), 4] 5).2 = true)
    ∧ ((∀ d ∈ [(5 : Int), 4], d ≠ 5) →
      (calculate_streak [(5 : Int), 4] 5).1 = 0) :=
  c2_streak_requires_today [5, 4] 5 (by decide)

theorem setLogCompleted_count (logs : List HabitLogR) (hid : Nat) (d : Int)
    (c : Bool) (hid2 : Nat) (d2 : Int) :
    countLogs (setLogCompleted logs hid d c) hid2 d2 = countLogs logs hid2 d2 := by
  induction logs with
  | nil => rfl
  | cons l ls ih =>
    simp only [setLogCompleted]
    split
    · simp only [countLogs]
    · simp only [countLogs, ih]

theorem setLogCompleted_length (logs : List HabitLogR) (hid : Nat) (d : Int)
    (c : Bool) :
    (setLogCompleted logs hid d c).length = logs.length := by
  induction logs with
  | nil => rfl
  | cons l ls ih =>
    simp only [setLogCompleted]
    split
    · simp
    · simp [ih]

theorem countLogs_append (l1 l2 : List HabitLogR) (hid : Nat) (d : Int) :
    countLogs (l1 ++ l2) hid d = countLogs l1 hid d + countLogs l2 hid d := by
  induction l1 with
  | nil => simp [countLogs]
  | cons l ls ih =>
    simp only [List.cons_append, countLogs, List.append_eq]
    rw [ih]
    omega

theorem findLog_none_count (logs : List HabitLogR) (hid : Nat) (d : Int)
    (h : findLog logs hid d = none) : countLogs logs hid d = 0 := by
  induction logs with
  | nil => rfl
  | cons l ls ih =>
    simp only [findLog] at h
    simp only [countLogs]
    split at h
    · exact Option.noConfusion h
    · rename_i hk
      rw [if_neg hk, ih h]

theorem log_habit_preserves_inv (db : DB) (hid : Nat) (dt : Int) (c : Bool)
    (uid : Nat) (h : atMostOneLogPerKey db.habit_logs) :
    atMostOneLogPerKey ((log_habit db hid dt c uid).2).habit_logs := by
  unfold log_habit
  cases hh : findHabit db.habits hid uid with
  | none => exact h
  | some hb =>
    cases hl : findLog db.habit_logs hid dt with
    | some e =>
      intro hid2 d2
      simp only []
      rw [setLogCompleted_count]
      exact h hid2 d2
    | none =>
      intro hid2 d2
      simp only []
      rw [countLogs_append]
      by_cases hk : hid = hid2 ∧ dt = d2
      · have h0 : countLogs db.habit_logs hid2 d2 = 0 := by
          rw [← hk.1, ← hk.2]
          exact findLog_none_count db.habit_logs hid dt hl
        simp [countLogs, hk.1, hk.2, h0]
      · have h1 : countLogs [(⟨hid, dt, c⟩ : HabitLogR)] hid2 d2 = 0 := by
          simp only [countLogs, if_neg hk]
        rw [h1]
        have := h hid2 d2
        omega

/-- C9: starting from a store with at most one log row per `(habit, date)`,
any sequence of `log_habit` calls preserves that invariant, and a call for
a `(habit, date)` that already has a log row never changes the number of
log rows (the existing row's completed flag is updated in place). -/
theorem c9_log_habit_upsert (db : DB) (calls : List (Nat × Int × Bool × Nat))
    (h : atMostOneLogPerKey db.habit_logs) :
    atMostOneLogPerKey ((applyLogCalls db calls).habit_logs)
    ∧ (∀ hid d c uid, findLog db.habit_logs hid d ≠ none →
        ((log_habit db hid d c uid).2).habit_logs.length = db.habit_logs.length) := by
  constructor
  · unfold applyLogCalls
    induction calls generalizing db with
    | nil => exact h
    | cons call rest ih =>
      simp only [List.foldl_cons]
      exact ih _ (log_habit_preserves_inv db call.1 call.2.1 call.2.2.1 call.2.2.2 h)
  · intro hid d c uid hfind
    unfold log_habit
    cases hh : findHabit db.habits hid uid with
    | none => rfl
    | some hb =>
      cases hl : findLog db.habit_logs hid d with
      | some e => simp only []; exact setLogCompleted_length db.habit_logs hid d c
      | none => exact absurd hl hfind

/-- C9 witness: the empty store satisfies the invariant; two logging calls
for the same habit and date collapse to one row. -/
theorem c9_log_habit_upsert_witness :
    atMostOneLogPerKey
      ((applyLogCalls ⟨[], [⟨1, "Read", "daily", false, 7⟩], [], [], []⟩
        [(1, (5 : Int), true, 7), (1, (5 : Int), false, 7)]).habit_logs)
    ∧ (∀ hid d c uid,
        findLog (DB.habit_logs ⟨[], [⟨1, "Read", "daily", false, 7⟩], [], [], []⟩) hid d ≠ none →
        ((log_habit ⟨[], [⟨1, "Read", "daily", false, 7⟩], [], [], []⟩ hid d c uid).2).habit_logs.length =
          (DB.habit_logs ⟨[], [⟨1, "Read", "daily", false, 7⟩], [], [], []⟩).length) :=
  c9_log_habit_upsert ⟨[], [⟨1, "Read", "daily", false, 7⟩], [], [], []⟩
    [(1, (5 : Int), true, 7), (1, (5 : Int), false, 7)]
    (fun hid d => by simp [countLogs])

/-- C10: whenever `edit_habit` finds the habit and returns a dict, that
dict reports `current_streak = 0` and `is_logged_today = false`, whatever
completed logs the habit actually has. -/
theorem c10_edit_habit_reports_zero_streak (db : DB) (hid uid : Nat)
    (nm : String) (out : HabitOut)
    (h : (edit_habit db hid uid nm).1 = some out) :
    out.current_streak = 0 ∧ out.is_logged_today = false := by
  unfold edit_habit at h
  split at h
  · exact Option.noConfusion h
  · rw [← Option.some.inj h]
    exact ⟨rfl, rfl⟩

/-- C10 witness: a habit with a live 1-day streak (completed log on day 5)
is renamed, and the returned dict still reports streak 0, not logged. -/
theorem c10_edit_habit_reports_zero_streak_witness :
    ((edit_habit ⟨[], [⟨1, "Read", "daily", false, 7⟩], [⟨1, (5 : Int), true⟩], [], []⟩
        1 7 "Study").1 = some ⟨1, "Study", "daily", 7, 0, false⟩)
    ∧ (⟨1, "Study", "daily", 7, 0, false⟩ : HabitOut).current_streak = 0
    ∧ (⟨1, "Study", "daily", 7, 0, false⟩ : HabitOut).is_logged_today = false :=
  have hfind : (edit_habit ⟨[], [⟨1, "Read", "daily", false, 7⟩], [⟨1, (5 : Int), true⟩], [], []⟩
      1 7 "Study").1 = some ⟨1, "Study", "daily", 7, 0, false⟩ := by decide
  ⟨hfind, c10_edit_habit_reports_zero_streak _ 1 7 "Study" _ hfind⟩

theorem pyRound_ge_floor (q : ℚ) : ⌊q⌋ ≤ pyRound q := by
  unfold pyRound
  split_ifs <;> omega

theorem pyRound_le_floor_add_one (q : ℚ) : pyRound q ≤ ⌊q⌋ + 1 := by
  unfold pyRound
  split_ifs <;> omega

theorem pyRound_nonneg (q : ℚ) (h : 0 ≤ q) : 0 ≤ pyRound q :=
  le_trans (Int.floor_nonneg.mpr h) (pyRound_ge_floor q)

theorem pyRound_le_int (q : ℚ) (n : ℤ) (h : q ≤ (n : ℚ)) : pyRound q ≤ n := by
  have hf : ⌊q⌋ ≤ n := by
    have := Int.floor_mono h
    rwa [Int.floor_intCast] at this
  by_cases heq : ⌊q⌋ = n
  · have hq : q ≤ ((⌊q⌋ : ℤ) : ℚ) := by
      rw [heq]; exact h
    have hr : q - (⌊q⌋ : ℚ) < 1 / 2 := by linarith
    unfold pyRound
    rw [if_pos hr]
    exact hf
  · have h1 : ⌊q⌋ + 1 ≤ n := by omega
    exact le_trans (pyRound_le_floor_add_one q) h1

theorem pyRound_zero : pyRound 0 = 0 := by
  unfold pyRound
  norm_num

theorem pyRound1_zero : pyRound1 0 = 0 := by
  unfold pyRound1
  rw [mul_zero, pyRound_zero]
  norm_num

/-- C7: the rate computations are total on empty input: with no active
tasks the dashboard task completion rate is 0, with no active habits the
dashboard habit consistency rate is 0, and the weekly report's task and
habit rates are likewise 0 when their totals are 0 — by the
`if total else 0` definition, not by an error path. -/
theorem c7_rates_safe_on_empty (db : DB) (uid : Nat) (t : Int) :
    (activeTasks db uid = [] → (get_dashboard db uid t).task_completion_rate = 0)
    ∧ (activeHabits db uid = [] → (get_dashboard db uid t).habit_consistency_rate = 0)
    ∧ (activeTasks db uid = [] → reportTaskRate (activeTasks db uid) = 0)
    ∧ (∀ n : Nat, reportHabitRate n 0 = 0) := by
  refine ⟨?_, ?_, ?_, ?_⟩
  · intro h
    simp only [get_dashboard, h, List.length_nil, if_pos rfl]
    exact pyRound1_zero
  · intro h
    simp only [get_dashboard, h, List.length_nil, if_pos rfl]
    exact pyRound1_zero
  · intro h
    simp only [reportTaskRate, h, List.length_nil, if_pos rfl]
    exact pyRound_zero
  · intro n
    simp only [reportHabitRate, Nat.zero_mul, if_pos rfl]
    exact pyRound_zero

/-- C7 witness: the empty database. -/
theorem c7_rates_safe_on_empty_witness :
    (activeTasks ⟨[], [], [], [], []⟩ 1 = [] →
      (get_dashboard ⟨[], [], [], [], []⟩ 1 10).task_completion_rate = 0)
    ∧ (activeHabits ⟨[], [], [], [], []⟩ 1 = [] →
      (get_dashboard ⟨[], [], [], [], []⟩ 1 10).habit_consistency_rate = 0)
    ∧ (activeTasks ⟨[], [], [], [], []⟩ 1 = [] →
      reportTaskRate (activeTasks ⟨[], [], [], [], []⟩ 1) = 0)
    ∧ (∀ n : Nat, reportHabitRate n 0 = 0) :=
  c7_rates_safe_on_empty ⟨[], [], [], [], []⟩ 1 10

/-- C8: for rates in [0, 100] the weighted score
`round(task_rate * 0.6 + habit_rate * 0.4)` is an integer in [0, 100]. -/
theorem c8_blend_score_in_range (t h : ℚ) (ht0 : 0 ≤ t) (ht1 : t ≤ 100)
    (hh0 : 0 ≤ h) (hh1 : h ≤ 100) :
    0 ≤ blendScore t h ∧ blendScore t h ≤ 100 := by
  have hlo : (0 : ℚ) ≤ t * (3 / 5) + h * (2 / 5) := by linarith
  have hhi : t * (3 / 5) + h * (2 / 5) ≤ ((100 : ℤ) : ℚ) := by
    push_cast
    linarith
  exact ⟨pyRound_nonneg _ hlo, pyRound_le_int _ 100 hhi⟩

/-- C8 witness at task rate 99.9 and habit rate 100. -/
theorem c8_blend_score_in_range_witness :
    0 ≤ blendScore (999 / 10) 100 ∧ blendScore (999 / 10) 100 ≤ 100 :=
  c8_blend_score_in_range (999 / 10) 100 (by norm_num) (by norm_num)
    (by norm_num) (by norm_num)

/-- C5 counterexample: for the spec's own example today = 2024-06-12, the
window start is 2024-06-05, a Wednesday (weekday 2), so the window is not
a Monday–Sunday week. -/
theorem c5_counterexample :
    report_week_start (ofYMD 2024 6 12) = ofYMD 2024 6 5
    ∧ weekday (ofYMD 2024 6 5) = 2
    ∧ ¬ (weekday (report_week_start (ofYMD 2024 6 12)) = 0) := by
  decide

/-- C5 (amended): for every today, week_end = today − 1 and
week_start = week_end − 6 — the most recent 7 fully elapsed days ending
yesterday; week_start falls on the same weekday as today (so the window is
Monday–Sunday exactly when today is a Monday).  For today = 2024-06-12 the
window is 2024-06-05 … 2024-06-11. -/
theorem c5_report_window :
    (∀ t : Int, report_week_end t = t - 1
      ∧ report_week_start t = report_week_end t - 6
      ∧ weekday (report_week_start t) = weekday t)
    ∧ report_week_end (ofYMD 2024 6 12) = ofYMD 2024 6 11
    ∧ report_week_start (ofYMD 2024 6 12) = ofYMD 2024 6 5 := by
  refine ⟨fun t => ⟨rfl, rfl, ?_⟩, by decide, by decide⟩
  unfold weekday report_week_start report_week_end
  omega

theorem DB.eq_of_fields {a b : DB} (h1 : a.tasks = b.tasks)
    (h2 : a.habits = b.habits) (h3 : a.habit_logs = b.habit_logs)
    (h4 : a.weekly_reports = b.weekly_reports) (h5 : a.users = b.users) :
    a = b := by
  cases a
  cases b
  simp_all

theorem gen_fst (db : DB) (u : UserR) (t : Int) :
    (generate_weekly_report db u t).1 =
      reportContent db.tasks db.habits db.habit_logs u t := by
  unfold generate_weekly_report
  split <;> rfl

theorem gen_keeps_tables (db : DB) (u : UserR) (t : Int) :
    ((generate_weekly_report db u t).2).tasks = db.tasks
    ∧ ((generate_weekly_report db u t).2).habits = db.habits
    ∧ ((generate_weekly_report db u t).2).habit_logs = db.habit_logs
    ∧ ((generate_weekly_report db u t).2).users = db.users := by
  unfold generate_weekly_report
  split <;> exact ⟨rfl, rfl, rfl, rfl⟩

theorem gen_reports_of_none (db : DB) (u : UserR) (t : Int)
    (hf : findReport db.weekly_reports u.id (report_week_start t) = none) :
    ((generate_weekly_report db u t).2).weekly_reports =
      db.weekly_reports ++ [⟨u.id, report_week_start t, report_week_end t,
        (reportContent db.tasks db.habits db.habit_logs u t).1,
        (reportContent db.tasks db.habits db.habit_logs u t).2⟩] := by
  unfold generate_weekly_report
  rw [hf]

theorem gen_reports_of_some (db : DB) (u : UserR) (t : Int) (r : WeeklyReportR)
    (hf : findReport db.weekly_reports u.id (report_week_start t) = some r) :
    ((generate_weekly_report db u t).2).weekly_reports =
      updateFirstReport db.weekly_reports u.id (report_week_start t)
        (reportContent db.tasks db.habits db.habit_logs u t).1
        (reportContent db.tasks db.habits db.habit_logs u t).2 := by
  unfold generate_weekly_report
  rw [hf]

theorem findReport_append (rs ls : List WeeklyReportR) (uid : Nat) (ws : Int) :
    findReport (rs ++ ls) uid ws =
      match findReport rs uid ws with
      | some r => some r
      | none => findReport ls uid ws := by
  induction rs with
  | nil => rfl
  | cons r rest ih =>
    simp only [List.cons_append, findReport]
    split
    · rfl
    · exact ih

theorem findReport_update (rs : List WeeklyReportR) (uid : Nat) (ws : Int)
    (txt : String) (sc : Int) :
    findReport (updateFirstReport rs uid ws txt sc) uid ws =
      (findReport rs uid ws).map
        (fun r => { r with report := txt, score := sc }) := by
  induction rs with
  | nil => rfl
  | cons r rest ih =>
    by_cases hk : r.user_id = uid ∧ r.week_start = ws
    · simp only [updateFirstReport, if_pos hk, findReport, Option.map_some]
      rfl
    · simp only [updateFirstReport, if_neg hk, findReport, ih]

theorem updateFirstReport_append_of_none (rs ls : List WeeklyReportR)
    (uid : Nat) (ws : Int) (txt : String) (sc : Int)
    (hf : findReport rs uid ws = none) :
    updateFirstReport (rs ++ ls) uid ws txt sc =
      rs ++ updateFirstReport ls uid ws txt sc := by
  induction rs with
  | nil => rfl
  | cons r rest ih =>
    simp only [findReport] at hf
    split at hf
    · exact Option.noConfusion hf
    · rename_i hk
      simp only [List.cons_append, updateFirstReport, if_neg hk, List.append_eq]
      rw [ih hf]

theorem updateFirstReport_idem (rs : List WeeklyReportR) (uid : Nat) (ws : Int)
    (txt : String) (sc : Int) :
    updateFirstReport (updateFirstReport rs uid ws txt sc) uid ws txt sc =
      updateFirstReport rs uid ws txt sc := by
  induction rs with
  | nil => rfl
  | cons r rest ih =>
    by_cases hk : r.user_id = uid ∧ r.week_start = ws
    · simp only [updateFirstReport, if_pos hk]
    · simp only [updateFirstReport, if_neg hk, ih]

theorem countReports_append (l1 l2 : List WeeklyReportR) (uid : Nat) (ws : Int) :
    countReports (l1 ++ l2) uid ws =
      countReports l1 uid ws + countReports l2 uid ws := by
  induction l1 with
  | nil => simp [countReports]
  | cons r rest ih =>
    simp only [List.cons_append, countReports, List.append_eq]
    rw [ih]
    omega

theorem countReports_update (rs : List WeeklyReportR) (uid : Nat) (ws : Int)
    (txt : String) (sc : Int) (uid2 : Nat) (ws2 : Int) :
    countReports (updateFirstReport rs uid ws txt sc) uid2 ws2 =
      countReports rs uid2 ws2 := by
  induction rs with
  | nil => rfl
  | cons r rest ih =>
    by_cases hk : r.user_id = uid ∧ r.week_start = ws
    · simp only [updateFirstReport, if_pos hk, countReports]
    · simp only [updateFirstReport, if_neg hk, countReports, ih]

theorem findReport_none_countReports (rs : List WeeklyReportR) (uid : Nat)
    (ws : Int) (hf : findReport rs uid ws = none) :
    countReports rs uid ws = 0 := by
  induction rs with
  | nil => rfl
  | cons r rest ih =>
    simp only [findReport] at hf
    split at hf
    · exact Option.noConfusion hf
    · rename_i hk
      simp only [countReports, if_neg hk, ih hf]

theorem findReport_some_countReports (rs : List WeeklyReportR) (uid : Nat)
    (ws : Int) (r : WeeklyReportR)
    (hf : findReport rs uid ws = some r) :
    1 ≤ countReports rs uid ws := by
  induction rs with
  | nil => exact Option.noConfusion hf
  | cons x rest ih =>
    simp only [findReport] at hf
    simp only [countReports]
    split at hf
    · rename_i hk
      rw [if_pos hk]
      omega
    · rename_i hk
      rw [if_neg hk]
      have := ih hf
      omega

/-- C4: starting from a store with at most one report row for
`(user, week_start today)`, generating the weekly report twice for the same
user and today leaves exactly one report row for that key, the second call
rewrites the same text and score in place (the state after the second call
equals the state after the first), and the second call's returned output
equals the first call's. -/
theorem c4_report_regeneration_idempotent (db : DB) (u : UserR) (t : Int)
    (h : countReports db.weekly_reports u.id (report_week_start t) ≤ 1) :
    (generate_weekly_report ((generate_weekly_report db u t).2) u t).1 =
      (generate_weekly_report db u t).1
    ∧ (generate_weekly_report ((generate_weekly_report db u t).2) u t).2 =
      (generate_weekly_report db u t).2
    ∧ countReports ((generate_weekly_report db u t).2).weekly_reports u.id
        (report_week_start t) = 1 := by
  obtain ⟨ht, hh, hl, hu⟩ := gen_keeps_tables db u t
  have hcontent : reportContent ((generate_weekly_report db u t).2).tasks
      ((generate_weekly_report db u t).2).habits
      ((generate_weekly_report db u t).2).habit_logs u t =
      reportContent db.tasks db.habits db.habit_logs u t := by
    rw [ht, hh, hl]
  have hout : (generate_weekly_report ((generate_weekly_report db u t).2) u t).1 =
      (generate_weekly_report db u t).1 := by
    rw [gen_fst, gen_fst, hcontent]
  refine ⟨hout, ?_, ?_⟩
  · cases hf : findReport db.weekly_reports u.id (report_week_start t) with
    | none =>
      have hrep1 := gen_reports_of_none db u t hf
      have hf2 : findReport ((generate_weekly_report db u t).2).weekly_reports
          u.id (report_week_start t) =
          some ⟨u.id, report_week_start t, report_week_end t,
            (reportContent db.tasks db.habits db.habit_logs u t).1,
            (reportContent db.tasks db.habits db.habit_logs u t).2⟩ := by
        rw [hrep1, findReport_append, hf]
        simp [findReport]
      have hrep2 := gen_reports_of_some _ u t _ hf2
      rw [hcontent] at hrep2
      have hsame : ((generate_weekly_report ((generate_weekly_report db u t).2)
          u t).2).weekly_reports =
          ((generate_weekly_report db u t).2).weekly_reports := by
        rw [hrep2, hrep1,
          updateFirstReport_append_of_none _ _ _ _ _ _ hf]
        simp [updateFirstReport]
      obtain ⟨ht2, hh2, hl2, hu2⟩ := gen_keeps_tables ((generate_weekly_report db u t).2) u t
      exact DB.eq_of_fields ht2 hh2 hl2 hsame hu2
    | some r0 =>
      have hrep1 := gen_reports_of_some db u t r0 hf
      have hf2 : findReport ((generate_weekly_report db u t).2).weekly_reports
          u.id (report_week_start t) =
          some { r0 with
            report := (reportContent db.tasks db.habits db.habit_logs u t).1,
            score := (reportContent db.tasks db.habits db.habit_logs u t).2 } := by
        rw [hrep1, findReport_update, hf]
        rfl
      have hrep2 := gen_reports_of_some _ u t _ hf2
      rw [hcontent] at hrep2
      have hsame : ((generate_weekly_report ((generate_weekly_report db u t).2)
          u t).2).weekly_reports =
          ((generate_weekly_report db u t).2).weekly_reports := by
        rw [hrep2, hrep1, updateFirstReport_idem]
      obtain ⟨ht2, hh2, hl2, hu2⟩ := gen_keeps_tables ((generate_weekly_report db u t).2) u t
      exact DB.eq_of_fields ht2 hh2 hl2 hsame hu2
  · cases hf : findReport db.weekly_reports u.id (report_week_start t) with
    | none =>
      rw [gen_reports_of_none db u t hf, countReports_append,
        findReport_none_countReports _ _ _ hf]
      simp [countReports]
    | some r0 =>
      rw [gen_reports_of_some db u t r0 hf, countReports_update]
      have := findReport_some_countReports _ _ _ _ hf
      omega

/-- C4 witness: a fresh store (no report rows) for user 1 at day 100. -/
theorem c4_report_regeneration_idempotent_witness :
    countReports (DB.weekly_reports ⟨[], [], [], [], []⟩) 1
      (report_week_start 100) ≤ 1
    ∧ ((generate_weekly_report
          ((generate_weekly_report ⟨[], [], [], [], []⟩ ⟨1, "Ana", "ana@x.com"⟩ 100).2)
          ⟨1, "Ana", "ana@x.com"⟩ 100).1 =
        (generate_weekly_report ⟨[], [], [], [], []⟩ ⟨1, "Ana", "ana@x.com"⟩ 100).1
      ∧ (generate_weekly_report
          ((generate_weekly_report ⟨[], [], [], [], []⟩ ⟨1, "Ana", "ana@x.com"⟩ 100).2)
          ⟨1, "Ana", "ana@x.com"⟩ 100).2 =
        (generate_weekly_report ⟨[], [], [], [], []⟩ ⟨1, "Ana", "ana@x.com"⟩ 100).2
      ∧ countReports ((generate_weekly_report ⟨[], [], [], [], []⟩
          ⟨1, "Ana", "ana@x.com"⟩ 100).2).weekly_reports 1
          (report_week_start 100) = 1) :=
  ⟨by decide,
    c4_report_regeneration_idempotent ⟨[], [], [], [], []⟩
      ⟨1, "Ana", "ana@x.com"⟩ 100 (by decide)⟩

theorem le_foldl_max (l : List Nat) : ∀ s : Nat, s ≤ l.foldl max s := by
  induction l with
  | nil => intro s; exact le_refl s
  | cons a l ih =>
    intro s
    exact le_trans (Nat.le_max_left s a) (ih (max s a))

theorem mem_le_foldl_max (l : List Nat) :
    ∀ s : Nat, ∀ a ∈ l, a ≤ l.foldl max s := by
  induction l with
  | nil =>
    intro s a ha
    cases ha
  | cons b l ih =>
    intro s a ha
    rcases List.mem_cons.mp ha with rfl | ha2
    · exact le_trans (Nat.le_max_right s a) (le_foldl_max l (max s a))
    · exact ih (max s b) a ha2

theorem foldl_max_eq_of_le (l : List Nat) :
    ∀ s : Nat, (∀ a ∈ l, a ≤ s) → l.foldl max s = s := by
  induction l with
  | nil => intro s _; rfl
  | cons a l ih =>
    intro s h
    simp only [List.foldl_cons]
    rw [Nat.max_eq_left (h a (List.mem_cons_self a l))]
    exact ih s (fun b hb => h b (List.mem_cons_of_mem a hb))

theorem bestFold_snd (logs : List HabitLogR) (today : Int) (l : List HabitR) :
    ∀ acc, (bestHabitFold logs today l acc).2 =
      (l.map (habitStreak logs today)).foldl max acc.2 := by
  induction l with
  | nil => intro acc; rfl
  | cons h hs ih =>
    intro acc
    simp only [bestHabitFold, List.map_cons, List.foldl_cons]
    by_cases hlt : acc.2 < habitStreak logs today h
    · rw [if_pos hlt, ih]
      congr 1
      omega
    · rw [if_neg hlt, ih]
      congr 1
      omega

theorem bestFold_fst_stable (logs : List HabitLogR) (today : Int)
    (l : List HabitR) :
    ∀ nm (s : Nat), (∀ h ∈ l, habitStreak logs today h ≤ s) →
      (bestHabitFold logs today l (nm, s)).1 = nm := by
  induction l with
  | nil => intro nm s _; rfl
  | cons h hs ih =>
    intro nm s hb
    have hh : habitStreak logs today h ≤ s := hb h (List.mem_cons_self h hs)
    simp only [bestHabitFold]
    rw [if_neg (by omega)]
    exact ih nm s (fun x hx => hb x (List.mem_cons_of_mem h hx))

theorem bestFold_fst_of_lt (logs : List HabitLogR) (today : Int)
    (l : List HabitR) :
    ∀ nm (s : Nat), s < (l.map (habitStreak logs today)).foldl max s →
      (bestHabitFold logs today l (nm, s)).1 =
        (l.find? (fun h => habitStreak logs today h ==
          (l.map (habitStreak logs today)).foldl max s)).map HabitR.name := by
  induction l with
  | nil =>
    intro nm s hlt
    simp only [List.map_nil, List.foldl_nil] at hlt
    omega
  | cons h hs ih =>
    intro nm s hlt
    by_cases h1 : s < habitStreak logs today h
    · simp only [bestHabitFold]
      rw [if_pos h1]
      have hM : (List.map (habitStreak logs today) (h :: hs)).foldl max s =
          (hs.map (habitStreak logs today)).foldl max (habitStreak logs today h) := by
        simp only [List.map_cons, List.foldl_cons]
        congr 1
        omega
      by_cases h2 : habitStreak logs today h <
          (hs.map (habitStreak logs today)).foldl max (habitStreak logs today h)
      · rw [ih (some h.name) (habitStreak logs today h) h2, hM]
        have hne : ¬ ((habitStreak logs today h ==
            (hs.map (habitStreak logs today)).foldl max
              (habitStreak logs today h)) = true) := by
          simp only [beq_iff_eq]
          omega
        have hskip : List.find? (fun x => habitStreak logs today x ==
              (hs.map (habitStreak logs today)).foldl max
                (habitStreak logs today h)) (h :: hs) =
            List.find? (fun x => habitStreak logs today x ==
              (hs.map (habitStreak logs today)).foldl max
                (habitStreak logs today h)) hs :=
          List.find?_cons_of_neg hs hne
        rw [hskip]
      · have hmax : (hs.map (habitStreak logs today)).foldl max
            (habitStreak logs today h) = habitStreak logs today h := by
          have := le_foldl_max (hs.map (habitStreak logs today))
            (habitStreak logs today h)
          omega
        have hall : ∀ x ∈ hs, habitStreak logs today x ≤ habitStreak logs today h := by
          intro x hx
          have := mem_le_foldl_max (hs.map (habitStreak logs today))
            (habitStreak logs today h) (habitStreak logs today x)
            (List.mem_map_of_mem (habitStreak logs today) hx)
          omega
        rw [bestFold_fst_stable logs today hs (some h.name)
          (habitStreak logs today h) hall, hM, hmax]
        have hpos : (habitStreak logs today h == habitStreak logs today h) = true := by
          simp
        have hhit : List.find? (fun x => habitStreak logs today x ==
              habitStreak logs today h) (h :: hs) = some h :=
          List.find?_cons_of_pos hs hpos
        rw [hhit]
        rfl
    · simp only [bestHabitFold]
      rw [if_neg h1]
      have hM : (List.map (habitStreak logs today) (h :: hs)).foldl max s =
          (hs.map (habitStreak logs today)).foldl max s := by
        simp only [List.map_cons, List.foldl_cons]
        congr 1
        omega
      rw [hM] at hlt ⊢
      rw [ih nm s hlt]
      have hne : ¬ ((habitStreak logs today h ==
          (hs.map (habitStreak logs today)).foldl max s) = true) := by
        simp only [beq_iff_eq]
        omega
      have hskip : List.find? (fun x => habitStreak logs today x ==
            (hs.map (habitStreak logs today)).foldl max s) (h :: hs) =
          List.find? (fun x => habitStreak logs today x ==
            (hs.map (habitStreak logs today)).foldl max s) hs :=
        List.find?_cons_of_neg hs hne
      rw [hskip]

/-- C6: the report's best habit is selected by streak at today over the
user's non-deleted habits: the kept streak is the maximum streak, a run of
all-zero streaks keeps no habit and makes the streak line the
start-a-habit prompt, and when the maximum is positive the habit kept is
the first one in iteration order attaining it (ties keep the first). -/
theorem c6_best_habit_selection (db : DB) (u : UserR) (t : Int) :
    (bestHabit db.habit_logs (activeHabits db u.id) t).2 =
      ((activeHabits db u.id).map (habitStreak db.habit_logs t)).foldl max 0
    ∧ ((∀ h ∈ activeHabits db u.id, habitStreak db.habit_logs t h = 0) →
        bestHabit db.habit_logs (activeHabits db u.id) t = (none, 0)
        ∧ streakLine (bestHabit db.habit_logs (activeHabits db u.id) t) =
          "Start a habit this week to build your first streak.")
    ∧ (0 < (bestHabit db.habit_logs (activeHabits db u.id) t).2 →
        (bestHabit db.habit_logs (activeHabits db u.id) t).1 =
          ((activeHabits db u.id).find? (fun h => habitStreak db.habit_logs t h ==
            (bestHabit db.habit_logs (activeHabits db u.id) t).2)).map
            HabitR.name) := by
  have hsnd : (bestHabit db.habit_logs (activeHabits db u.id) t).2 =
      ((activeHabits db u.id).map (habitStreak db.habit_logs t)).foldl max 0 :=
    bestFold_snd db.habit_logs t (activeHabits db u.id) (none, 0)
  refine ⟨hsnd, ?_, ?_⟩
  · intro hzero
    have hb : ∀ h ∈ activeHabits db u.id, habitStreak db.habit_logs t h ≤ 0 :=
      fun h hh => le_of_eq (hzero h hh)
    have hfst : (bestHabit db.habit_logs (activeHabits db u.id) t).1 = none :=
      bestFold_fst_stable db.habit_logs t (activeHabits db u.id) none 0 hb
    have hmax : ((activeHabits db u.id).map (habitStreak db.habit_logs t)).foldl
        max 0 = 0 := by
      refine foldl_max_eq_of_le _ 0 ?_
      intro a ha
      obtain ⟨h, hh, rfl⟩ := List.mem_map.mp ha
      exact hb h hh
    have hpair : bestHabit db.habit_logs (activeHabits db u.id) t = (none, 0) := by
      have h2 : (bestHabit db.habit_logs (activeHabits db u.id) t).2 = 0 :=
        hsnd.trans hmax
      exact Prod.ext hfst h2
    refine ⟨hpair, ?_⟩
    rw [hpair]
    rfl
  · intro hpos
    rw [hsnd] at hpos ⊢
    exact bestFold_fst_of_lt db.habit_logs t (activeHabits db u.id) none 0 hpos

/-- C6 witness: two habits with streaks 1 and 1 at day 6 — the first is
kept on the tie. -/
theorem c6_best_habit_selection_witness :
    (bestHabit
        (DB.habit_logs ⟨[], [⟨1, "Read", "daily", false, 7⟩, ⟨2, "Run", "daily", false, 7⟩],
          [⟨1, (6 : Int), true⟩, ⟨2, (6 : Int), true⟩], [], []⟩)
        (activeHabits ⟨[], [⟨1, "Read", "daily", false, 7⟩, ⟨2, "Run", "daily", false, 7⟩],
          [⟨1, (6 : Int), true⟩, ⟨2, (6 : Int), true⟩], [], []⟩ 7) 6).2 =
      ((activeHabits ⟨[], [⟨1, "Read", "daily", false, 7⟩, ⟨2, "Run", "daily", false, 7⟩],
          [⟨1, (6 : Int), true⟩, ⟨2, (6 : Int), true⟩], [], []⟩ 7).map
        (habitStreak (DB.habit_logs ⟨[], [⟨1, "Read", "daily", false, 7⟩, ⟨2, "Run", "daily", false, 7⟩],
          [⟨1, (6 : Int), true⟩, ⟨2, (6 : Int), true⟩], [], []⟩) 6)).foldl max 0
    ∧ ((∀ h ∈ activeHabits ⟨[], [⟨1, "Read", "daily", false, 7⟩, ⟨2, "Run", "daily", false, 7⟩],
          [⟨1, (6 : Int), true⟩, ⟨2, (6 : Int), true⟩], [], []⟩ 7,
        habitStreak (DB.habit_logs ⟨[], [⟨1, "Read", "daily", false, 7⟩, ⟨2, "Run", "daily", false, 7⟩],
          [⟨1, (6 : Int), true⟩, ⟨2, (6 : Int), true⟩], [], []⟩) 6 h = 0) →
        bestHabit (DB.habit_logs ⟨[], [⟨1, "Read", "daily", false, 7⟩, ⟨2, "Run", "daily", false, 7⟩],
          [⟨1, (6 : Int), true⟩, ⟨2, (6 : Int), true⟩], [], []⟩)
          (activeHabits ⟨[], [⟨1, "Read", "daily", false, 7⟩, ⟨2, "Run", "daily", false, 7⟩],
          [⟨1, (6 : Int), true⟩, ⟨2, (6 : Int), true⟩], [], []⟩ 7) 6 = (none, 0)
        ∧ streakLine (bestHabit (DB.habit_logs ⟨[], [⟨1, "Read", "daily", false, 7⟩, ⟨2, "Run", "daily", false, 7⟩],
          [⟨1, (6 : Int), true⟩, ⟨2, (6 : Int), true⟩], [], []⟩)
          (activeHabits ⟨[], [⟨1, "Read", "daily", false, 7⟩, ⟨2, "Run", "daily", false, 7⟩],
          [⟨1, (6 : Int), true⟩, ⟨2, (6 : Int), true⟩], [], []⟩ 7) 6) =
          "Start a habit this week to build your first streak.")
    ∧ (0 < (bestHabit (DB.habit_logs ⟨[], [⟨1, "Read", "daily", false, 7⟩, ⟨2, "Run", "daily", false, 7⟩],
          [⟨1, (6 : Int), true⟩, ⟨2, (6 : Int), true⟩], [], []⟩)
          (activeHabits ⟨[], [⟨1, "Read", "daily", false, 7⟩, ⟨2, "Run", "daily", false, 7⟩],
          [⟨1, (6 : Int), true⟩, ⟨2, (6 : Int), true⟩], [], []⟩ 7) 6).2 →
        (bestHabit (DB.habit_logs ⟨[], [⟨1, "Read", "daily", false, 7⟩, ⟨2, "Run", "daily", false, 7⟩],
          [⟨1, (6 : Int), true⟩, ⟨2, (6 : Int), true⟩], [], []⟩)
          (activeHabits ⟨[], [⟨1, "Read", "daily", false, 7⟩, ⟨2, "Run", "daily", false, 7⟩],
          [⟨1, (6 : Int), true⟩, ⟨2, (6 : Int), true⟩], [], []⟩ 7) 6).1 =
          ((activeHabits ⟨[], [⟨1, "Read", "daily", false, 7⟩, ⟨2, "Run", "daily", false, 7⟩],
          [⟨1, (6 : Int), true⟩, ⟨2, (6 : Int), true⟩], [], []⟩ 7).find?
            (fun h => habitStreak (DB.habit_logs ⟨[], [⟨1, "Read", "daily", false, 7⟩, ⟨2, "Run", "daily", false, 7⟩],
          [⟨1, (6 : Int), true⟩, ⟨2, (6 : Int), true⟩], [], []⟩) 6 h ==
              (bestHabit (DB.habit_logs ⟨[], [⟨1, "Read", "daily", false, 7⟩, ⟨2, "Run", "daily", false, 7⟩],
          [⟨1, (6 : Int), true⟩, ⟨2, (6 : Int), true⟩], [], []⟩)
          (activeHabits ⟨[], [⟨1, "Read", "daily", false, 7⟩, ⟨2, "Run", "daily", false, 7⟩],
          [⟨1, (6 : Int), true⟩, ⟨2, (6 : Int), true⟩], [], []⟩ 7) 6).2)).map
            HabitR.name) :=
  c6_best_habit_selection
    ⟨[], [⟨1, "Read", "daily", false, 7⟩, ⟨2, "Run", "daily", false, 7⟩],
      [⟨1, (6 : Int), true⟩, ⟨2, (6 : Int), true⟩], [], []⟩ ⟨7, "Ana", "ana@x.com"⟩ 6

theorem findReport_isSome_update (rs : List WeeklyReportR) (uid : Nat)
    (ws : Int) (txt : String) (sc : Int) (uid2 : Nat) (ws2 : Int) :
    (findReport (updateFirstReport rs uid ws txt sc) uid2 ws2).isSome =
      (findReport rs uid2 ws2).isSome := by
  induction rs with
  | nil => rfl
  | cons r rest ih =>
    by_cases hk : r.user_id = uid ∧ r.week_start = ws
    · simp only [updateFirstReport, if_pos hk, findReport]
      by_cases hk2 : r.user_id = uid2 ∧ r.week_start = ws2
      · rw [if_pos hk2, if_pos hk2]
        rfl
      · rw [if_neg hk2, if_neg hk2]
    · simp only [updateFirstReport, if_neg hk, findReport]
      by_cases hk2 : r.user_id = uid2 ∧ r.week_start = ws2
      · rw [if_pos hk2, if_pos hk2]
      · rw [if_neg hk2, if_neg hk2]
        exact ih

theorem findReport_isSome_append_left (rs ls : List WeeklyReportR)
    (uid : Nat) (ws : Int)
    (h : (findReport rs uid ws).isSome = true) :
    (findReport (rs ++ ls) uid ws).isSome = true := by
  rw [findReport_append]
  cases hf : findReport rs uid ws with
  | none => rw [hf] at h; exact Bool.noConfusion h
  | some r => rfl

theorem gen_report_present (db : DB) (u : UserR) (t : Int) :
    (findReport ((generate_weekly_report db u t).2).weekly_reports u.id
      (report_week_start t)).isSome = true := by
  cases hf : findReport db.weekly_reports u.id (report_week_start t) with
  | some r =>
    rw [gen_reports_of_some db u t r hf, findReport_update, hf]
    rfl
  | none =>
    rw [gen_reports_of_none db u t hf, findReport_append, hf]
    simp [findReport]

theorem gen_keeps_report_present (db : DB) (u : UserR) (t : Int)
    (uid2 : Nat) (ws2 : Int)
    (h : (findReport db.weekly_reports uid2 ws2).isSome = true) :
    (findReport ((generate_weekly_report db u t).2).weekly_reports uid2
      ws2).isSome = true := by
  cases hf : findReport db.weekly_reports u.id (report_week_start t) with
  | some r =>
    rw [gen_reports_of_some db u t r hf, findReport_isSome_update]
    exact h
  | none =>
    rw [gen_reports_of_none db u t hf]
    exact findReport_isSome_append_left _ _ _ _ h

/-- C3 counterexample: over three users where the second user's generation
raises, `run_weekly_reports` does not return `{usersProcessed: 3}` — the
Python function body has no return statement, so it returns `None`. -/
theorem c3_counterexample :
    ¬ ((run_weekly_reports (failingOn 2 (ofYMD 2024 6 12))
        ⟨[], [], [], [], [⟨1, "A", "a@x.com"⟩, ⟨2, "B", "b@x.com"⟩,
          ⟨3, "C", "c@x.com"⟩]⟩).1 = some 3) := by
  intro h
  exact Option.noConfusion h

/-- C3 (amended): over three users where the second user's generation
raises, `run_weekly_reports` returns `None` (it has no return statement;
the processed count is only logged), yet it still iterates all three
users: the failure is swallowed, the final state is exactly that of
generating reports for users 1 and 3 in order, and report rows for users 1
and 3 exist afterwards. -/
theorem c3_batch_isolation (db : DB) (t : Int) (u1 u2 u3 : UserR)
    (husers : db.users = [u1, u2, u3])
    (h1 : u1.id ≠ u2.id) (h3 : u3.id ≠ u2.id) :
    (run_weekly_reports (failingOn u2.id t) db).1 = none
    ∧ (run_weekly_reports (failingOn u2.id t) db).2 =
        (generate_weekly_report ((generate_weekly_report db u1 t).2) u3 t).2
    ∧ (findReport ((run_weekly_reports (failingOn u2.id t) db).2).weekly_reports
        u1.id (report_week_start t)).isSome = true
    ∧ (findReport ((run_weekly_reports (failingOn u2.id t) db).2).weekly_reports
        u3.id (report_week_start t)).isSome = true := by
  have hstate : (run_weekly_reports (failingOn u2.id t) db).2 =
      (generate_weekly_report ((generate_weekly_report db u1 t).2) u3 t).2 := by
    unfold run_weekly_reports
    rw [husers]
    simp only [List.foldl_cons, List.foldl_nil, failingOn, if_neg h1,
      if_neg h3, eq_self_iff_true, if_true]
  refine ⟨rfl, hstate, ?_, ?_⟩
  · rw [hstate]
    exact gen_keeps_report_present _ u3 t u1.id _ (gen_report_present db u1 t)
  · rw [hstate]
    exact gen_report_present _ u3 t

/-- C3 witness: three concrete users, user 2 failing, at today = 2024-06-12. -/
theorem c3_batch_isolation_witness :
    (DB.users ⟨[], [], [], [], [⟨1, "A", "a@x.com"⟩, ⟨2, "B", "b@x.com"⟩,
        ⟨3, "C", "c@x.com"⟩]⟩ =
      [⟨1, "A", "a@x.com"⟩, ⟨2, "B", "b@x.com"⟩, ⟨3, "C", "c@x.com"⟩])
    ∧ ((run_weekly_reports (failingOn (UserR.id ⟨2, "B", "b@x.com"⟩) (ofYMD 2024 6 12))
        ⟨[], [], [], [], [⟨1, "A", "a@x.com"⟩, ⟨2, "B", "b@x.com"⟩,
          ⟨3, "C", "c@x.com"⟩]⟩).1 = none
      ∧ (run_weekly_reports (failingOn (UserR.id ⟨2, "B", "b@x.com"⟩) (ofYMD 2024 6 12))
          ⟨[], [], [], [], [⟨1, "A", "a@x.com"⟩, ⟨2, "B", "b@x.com"⟩,
            ⟨3, "C", "c@x.com"⟩]⟩).2 =
        (generate_weekly_report ((generate_weekly_report
          ⟨[], [], [], [], [⟨1, "A", "a@x.com"⟩, ⟨2, "B", "b@x.com"⟩,
            ⟨3, "C", "c@x.com"⟩]⟩ ⟨1, "A", "a@x.com"⟩ (ofYMD 2024 6 12)).2)
          ⟨3, "C", "c@x.com"⟩ (ofYMD 2024 6 12)).2
      ∧ (findReport ((run_weekly_reports (failingOn (UserR.id ⟨2, "B", "b@x.com"⟩)
          (ofYMD 2024 6 12))
          ⟨[], [], [], [], [⟨1, "A", "a@x.com"⟩, ⟨2, "B", "b@x.com"⟩,
            ⟨3, "C", "c@x.com"⟩]⟩).2).weekly_reports
          (UserR.id ⟨1, "A", "a@x.com"⟩) (report_week_start (ofYMD 2024 6 12))).isSome = true
      ∧ (findReport ((run_weekly_reports (failingOn (UserR.id ⟨2, "B", "b@x.com"⟩)
          (ofYMD 2024 6 12))
          ⟨[], [], [], [], [⟨1, "A", "a@x.com"⟩, ⟨2, "B", "b@x.com"⟩,
            ⟨3, "C", "c@x.com"⟩]⟩).2).weekly_reports
          (UserR.id ⟨3, "C", "c@x.com"⟩) (report_week_start (ofYMD 2024 6 12))).isSome = true) :=
  ⟨rfl, c3_batch_isolation
    ⟨[], [], [], [], [⟨1, "A", "a@x.com"⟩, ⟨2, "B", "b@x.com"⟩, ⟨3, "C", "c@x.com"⟩]⟩
    (ofYMD 2024 6 12) ⟨1, "A", "a@x.com"⟩ ⟨2, "B", "b@x.com"⟩ ⟨3, "C", "c@x.com"⟩
    rfl (by decide) (by decide)⟩

end LifeOS
